import Mathlib

/-!
# Verification of `toml-migrate`

A shallow embedding of the `toml-migrate` crate (`src/lib.rs` and
`examples/migrate.rs`): a chain of versioned configuration schemas, a
recursive resolver (`Migrate::migrate_from_doc`) that walks the chain
backward from the target type until the document's version tag matches,
and `ConfigMigrator::migrate_config`, which parses the raw text, extracts
and removes the version field, resolves, and reports whether a migration
occurred.

The external TOML layer (`toml_edit`) is out of the crate's scope; it is
embedded as: a concrete document type (an association list of top-level
key/item pairs, with unique keys as TOML guarantees), an abstract parse
function parameter, and per-schema deserialization functions carried by
the chain. Errors are modelled by the crate's `Error` enum with the two
external error payloads as strings.
-/

/-- A top-level TOML item, restricted to the value kinds the crate's
claims exercise. `Item.as_integer` (from `toml_edit`) is `some` exactly
on integer items. -/
inductive Item where
  | int (i : Int)
  | str (s : String)
  deriving DecidableEq

/-- `toml_edit::Item::as_integer`: `Some(i)` for an integer value, `None`
otherwise. -/
def Item.as_integer : Item → Option Int
  | .int i => some i
  | .str _ => none

/-- A parsed TOML document (`toml_edit::DocumentMut`): the ordered list of
top-level key/item pairs. The TOML parser never produces duplicate keys. -/
abbrev Doc : Type := List (String × Item)

/-- `DocumentMut::remove(key)`: returns the item stored under `key` (if
any) together with the document with that key removed and every other
entry unchanged. -/
def Doc.remove (key : String) (d : Doc) : Option Item × Doc :=
  ((d.find? (fun p => p.1 = key)).map Prod.snd, d.filter (fun p => p.1 ≠ key))

/-- Read the item under a key without modifying the document. -/
def Doc.lookup (key : String) (d : Doc) : Option Item :=
  (d.find? (fun p => p.1 = key)).map Prod.snd

/-- Parse errors of the external TOML parser, kept abstract as a message. -/
abbrev TomlError := String

/-- Deserialization errors of the external TOML deserializer, kept
abstract as a message. -/
abbrev DeserError := String

/-- The crate's `Error` enum: parse error, deserialization error, or no
valid config version. -/
inductive Error where
  | parse (e : TomlError)
  | deser (e : DeserError)
  | noValidVersion
  deriving DecidableEq

/-- What `impl Migrate for T` provides for one schema type `T`, apart
from the chain linkage: its `VERSION` constant and its `DeserializeOwned`
implementation (`toml_edit::de::from_document`). -/
structure Schema (α : Type) where
  version : Int
  deser : Doc → Except DeserError α

/-- A migration chain ending at its index type, as wired by
`build_migration_chain!`: `root s` is the first declared schema (whose
`Migrate::From` is itself, the recursion's base case), and `cons s conv
rest` is a schema `s` whose `Migrate::From` is the head of `rest`, with
`conv` its `From`-conversion out of that predecessor type. -/
inductive Chain : Type → Type 1 where
  | root : Schema α → Chain α
  | cons : Schema β → (α → β) → Chain α → Chain β

/-- `T::VERSION` for the chain's target type: the head schema's version. -/
def Chain.version : Chain α → Int
  | .root s => s.version
  | .cons s _ _ => s.version

/-- The versions along the chain, target first (the order
`migrate_from_doc`'s recursion visits them). -/
def Chain.versions : Chain α → List Int
  | .root s => [s.version]
  | .cons s _ rest => s.version :: rest.versions

/-- The target type's own deserializer (`toml_edit::de::from_document`
at the head schema). -/
def Chain.deserHead : Chain α → Doc → Except DeserError α
  | .root s => s.deser
  | .cons s _ _ => s.deser

/-- `Migrate::migrate_from_doc`: if the tag equals this schema's
`VERSION`, deserialize the document here; else if this schema is its own
predecessor (the chain root), fail with `NoValidVersion`; else recurse
into the predecessor and convert the result forward with `Into::into`. -/
def migrate_from_doc : Chain α → Int → Doc → Except Error α
  | .root s, version, doc =>
      if version = s.version then (s.deser doc).mapError Error.deser
      else .error .noValidVersion
  | .cons s conv rest, version, doc =>
      if version = s.version then (s.deser doc).mapError Error.deser
      else (migrate_from_doc rest version doc).map conv

/-- The configuration of `ConfigMigrator`: the key naming the version
field, and the optional default version added by `with_default_version`. -/
structure ConfigMigrator where
  version_key : String
  default_version : Option Int

/-- `ConfigMigrator::migrate_config`: parse the raw text, remove the
version field and read it as an integer, falling back to the configured
default and then to `NoValidVersion`; resolve through
`migrate_from_doc`; report `migration_occured = (version != T::VERSION)`.
The external parser is passed as a function argument. -/
def migrate_config (m : ConfigMigrator) (parse : String → Except TomlError Doc)
    (c : Chain α) (config_str : String) : Except Error (α × Bool) :=
  match parse config_str with
  | .error e => .error (.parse e)
  | .ok doc₀ =>
    let rm := Doc.remove m.version_key doc₀
    match (rm.1.bind Item.as_integer).or m.default_version with
    | none => .error .noValidVersion
    | some version =>
      match migrate_from_doc c version rm.2 with
      | .error e => .error e
      | .ok config => .ok (config, version ≠ c.version)

/-- Modelled from the spec: the external TOML parser (spec §6 collaborator
(a), `toml_edit`, not part of this repository), restricted to the flat
`key = value` documents the spec's examples use. Whitespace characters a
line is trimmed of. -/
def isWs (c : Char) : Bool := c = ' ' || c = '\t' || c = '\r'

/-- Trim leading and trailing whitespace of a line. -/
def trimChars (l : List Char) : List Char :=
  ((l.dropWhile isWs).reverse.dropWhile isWs).reverse

/-- Split a character stream at newlines. -/
def splitLinesChars : List Char → List (List Char)
  | [] => [[]]
  | c :: cs =>
    if c = '\n' then [] :: splitLinesChars cs
    else
      match splitLinesChars cs with
      | [] => [[c]]
      | l :: ls => (c :: l) :: ls

/-- Read a digit string as a natural number, `none` on a non-digit or on
the empty string. -/
def digitsToNat : List Char → Option Nat
  | [] => none
  | [c] => if c.isDigit then some (c.toNat - 48) else none
  | c :: cs =>
    if c.isDigit then
      (digitsToNat cs).map (fun n => (c.toNat - 48) * 10 ^ cs.length + n)
    else none

/-- Modelled from the spec: a scalar TOML value, either a (possibly
negative) integer or a double-quoted string without inner quotes. -/
def parseValue (l : List Char) : Except TomlError Item :=
  match l with
  | '"' :: rest =>
    match rest.reverse with
    | '"' :: mid =>
      if mid.reverse.contains '"' then .error "string syntax"
      else .ok (.str (String.mk mid.reverse))
    | _ => .error "string syntax"
  | '-' :: ds =>
    match digitsToNat ds with
    | some n => .ok (.int (-(n : Int)))
    | none => .error "value syntax"
  | ds =>
    match digitsToNat ds with
    | some n => .ok (.int (n : Int))
    | none => .error "value syntax"

/-- Split a line at its first `=` into trimmed key and value parts. -/
def splitEq (acc : List Char) : List Char → Option (List Char × List Char)
  | [] => none
  | '=' :: rest => some (trimChars acc.reverse, trimChars rest)
  | c :: rest => splitEq (c :: acc) rest

/-- Modelled from the spec: parse one line into an optional key/item
pair; a blank line yields nothing, a line without `=` or with an empty
key or an unreadable value is a parse error. -/
def parseLine (l : List Char) : Except TomlError (Option (String × Item)) :=
  if trimChars l = [] then .ok none
  else
    match splitEq [] l with
    | none => .error "line syntax"
    | some (k, v) =>
      if k = [] then .error "empty key"
      else (parseValue v).map (fun item => some (String.mk k, item))

/-- Accumulate parsed lines into a document, rejecting duplicate keys as
TOML does. -/
def collectLines : List (List Char) → Except TomlError Doc
  | [] => .ok []
  | l :: ls => do
    let entry ← parseLine l
    let rest ← collectLines ls
    match entry with
    | none => .ok rest
    | some (k, item) =>
      if rest.any (fun p => p.1 = k) then .error "duplicate key"
      else .ok ((k, item) :: rest)

/-- Modelled from the spec: `str::parse::<DocumentMut>` (spec §6
collaborator (a)) for flat `key = value` documents. -/
def parseToml (s : String) : Except TomlError Doc :=
  collectLines (splitLinesChars s.data)

/-- `examples/migrate.rs`: the version-1 configuration schema. `timeout`
is a `u32`, carried as an `Int` whose range the deserializer checks. -/
structure ConfigV1 where
  name : String
  timeout : Int
  deriving DecidableEq

/-- `examples/migrate.rs`: the version-2 configuration schema, adding the
`u8` field `retries`. -/
structure ConfigV2 where
  name : String
  timeout : Int
  retries : Int
  deriving DecidableEq

/-- `impl From<ConfigV1> for ConfigV2` of `examples/migrate.rs`: keep
`name` and `timeout`, default `retries` to 4. -/
def ConfigV2.fromV1 (prev : ConfigV1) : ConfigV2 :=
  { name := prev.name, timeout := prev.timeout, retries := 4 }

/-- Read a required string field, as serde's derived deserializer does. -/
def getStrField (key : String) (d : Doc) : Except DeserError String :=
  match Doc.lookup key d with
  | some (.str s) => .ok s
  | some _ => .error (key ++ ": invalid type")
  | none => .error (key ++ ": missing field")

/-- Read a required unsigned integer field of `bits` bits, as serde's
derived deserializer does for `u32`/`u8` from a TOML `i64`. -/
def getUIntField (key : String) (bits : Nat) (d : Doc) : Except DeserError Int :=
  match Doc.lookup key d with
  | some (.int i) =>
    if 0 ≤ i ∧ i < 2 ^ bits then .ok i else .error (key ++ ": out of range")
  | some _ => .error (key ++ ": invalid type")
  | none => .error (key ++ ": missing field")

/-- `#[derive(Deserialize)]` for `ConfigV1`: required fields `name` and
`timeout`, unknown fields ignored. -/
def deserConfigV1 (d : Doc) : Except DeserError ConfigV1 := do
  let name ← getStrField "name" d
  let timeout ← getUIntField "timeout" 32 d
  .ok { name := name, timeout := timeout }

/-- `#[derive(Deserialize)]` for `ConfigV2`: required fields `name`,
`timeout` and `retries`, unknown fields ignored. -/
def deserConfigV2 (d : Doc) : Except DeserError ConfigV2 := do
  let name ← getStrField "name" d
  let timeout ← getUIntField "timeout" 32 d
  let retries ← getUIntField "retries" 8 d
  .ok { name := name, timeout := timeout, retries := retries }

/-- `build_migration_chain!(ConfigV1 = 1, ConfigV2 = 2)` of
`examples/migrate.rs`: `ConfigV1` is the root (its own predecessor),
`ConfigV2` follows it via `From<ConfigV1>`. -/
def exampleChain : Chain ConfigV2 :=
  .cons ⟨2, deserConfigV2⟩ ConfigV2.fromV1 (.root ⟨1, deserConfigV1⟩)

/-- A chain in which two distinct schemas carry the same version number,
as `build_migration_chain!(ConfigV1 = 1, ConfigV2 = 1)` would wire it:
the registry never validates uniqueness. -/
def chainDup : Chain ConfigV2 :=
  .cons ⟨1, deserConfigV2⟩ ConfigV2.fromV1 (.root ⟨1, deserConfigV1⟩)

/-- Deserialize at depth `j` behind the target (0 = the target itself)
and convert forward through the `j` interposed `From` conversions, with
no version checks: the reference behaviour the spec describes for a
document in the shape of the `j`-th schema counted from the target. -/
def migrateVia : Chain α → Nat → Doc → Except Error α
  | .root s, _, doc => (s.deser doc).mapError Error.deser
  | .cons s _ _, 0, doc => (s.deser doc).mapError Error.deser
  | .cons _ conv rest, j + 1, doc => (migrateVia rest j doc).map conv

/-! ## Helper lemmas -/

theorem Chain.versions_length_pos (c : Chain α) : 0 < c.versions.length := by
  cases c <;> simp [Chain.versions]

theorem Chain.version_eq_get_zero (c : Chain α) :
    c.version = c.versions.get ⟨0, c.versions_length_pos⟩ := by
  cases c <;> rfl


theorem Chain.version_eq_getElem_zero (c : Chain α) :
    c.versions[0]? = some c.version := by
  cases c <;> simp [Chain.versions, Chain.version]

/-- Walking backward from the target, `migrate_from_doc` resolves at the
first schema whose version equals the tag: if the `j` schemas nearest the
target do not match and the one at depth `j` does, the result is exactly
`migrateVia c j` (deserialize at depth `j`, then convert forward). -/
theorem migrate_from_doc_firstMatch {α : Type} (c : Chain α) (v : Int) (doc : Doc)
    (j : Nat) (hbefore : ∀ i, i < j → c.versions[i]? ≠ some v)
    (hv : c.versions[j]? = some v) :
    migrate_from_doc c v doc = migrateVia c j doc := by
  induction c generalizing j with
  | root s =>
    cases j with
    | zero =>
      simp only [Chain.versions] at hv
      rw [show ([s.version] : List Int)[0]? = some s.version from rfl] at hv
      simp only [Option.some_inj] at hv
      simp [migrate_from_doc, migrateVia, hv]
    | succ j' =>
      simp [Chain.versions] at hv
  | cons s conv rest ih =>
    cases j with
    | zero =>
      simp only [Chain.versions, List.getElem?_cons_zero, Option.some_inj] at hv
      simp [migrate_from_doc, migrateVia, hv]
    | succ j' =>
      have hne : s.version ≠ v := by
        have h0 := hbefore 0 (Nat.succ_pos j')
        simpa [Chain.versions] using h0
      have hv' : rest.versions[j']? = some v := by
        simpa [Chain.versions] using hv
      have hbefore' : ∀ i, i < j' → rest.versions[i]? ≠ some v := by
        intro i hi
        have := hbefore (i + 1) (Nat.succ_lt_succ hi)
        simpa [Chain.versions] using this
      simp only [migrate_from_doc, migrateVia]
      rw [if_neg (Ne.symm hne), ih j' hbefore' hv']

/-- Unfolding `migrate_config` on the path where parsing succeeds and a
version tag is obtained: the result is `migrate_from_doc` on the document
with the version field removed, paired with the migration flag. -/
theorem migrate_config_eq_of_version {α : Type} (m : ConfigMigrator)
    (parse : String → Except TomlError Doc) (c : Chain α) (s : String)
    (doc : Doc) (v : Int) (hparse : parse s = .ok doc)
    (hver : ((Doc.remove m.version_key doc).1.bind Item.as_integer).or
      m.default_version = some v) :
    migrate_config m parse c s =
      (migrate_from_doc c v (Doc.remove m.version_key doc).2).map
        (fun x => (x, decide (v ≠ c.version))) := by
  unfold migrate_config
  rw [hparse]
  simp only [hver]
  cases migrate_from_doc c v (Doc.remove m.version_key doc).2 <;>
    simp [Except.map]

/-- C1: for every migration chain with pairwise-distinct versions and
every document whose extracted version tag is the version of the schema
at depth `j` behind the target (depth 0 = target, so root-indexed
position `k = N - j`) and which deserializes successfully at that schema,
`migrate_config` returns `Ok` of the value obtained by deserializing the
document at that schema and applying the `From` conversions forward, in
order, up to the target, with `migration_occurred = (j ≠ 0)`, i.e.
`k ≠ N`. -/
theorem C1_chain_resolution {α : Type} (m : ConfigMigrator)
    (parse : String → Except TomlError Doc) (c : Chain α) (s : String)
    (doc : Doc) (v : Int) (j : Nat) (x : α)
    (hnodup : c.versions.Nodup)
    (hv : c.versions[j]? = some v)
    (hparse : parse s = .ok doc)
    (hver : ((Doc.remove m.version_key doc).1.bind Item.as_integer).or
      m.default_version = some v)
    (hdeser : migrateVia c j (Doc.remove m.version_key doc).2 = .ok x) :
    migrate_config m parse c s = .ok (x, decide (j ≠ 0)) := by
  have hjlen : j < c.versions.length := by
    rcases List.getElem?_eq_some.mp hv with ⟨h, _⟩
    exact h
  have hbefore : ∀ i, i < j → c.versions[i]? ≠ some v := by
    intro i hi hcontra
    have hij : i = j :=
      List.getElem?_inj (lt_trans hi hjlen) hnodup (hcontra.trans hv.symm)
    omega
  have hflag : (v ≠ c.version) ↔ (j ≠ 0) := by
    constructor
    · intro hvne hj0
      subst hj0
      rw [Chain.version_eq_getElem_zero c] at hv
      exact hvne (Option.some_inj.mp hv).symm
    · intro hj0 hveq
      subst hveq
      have h0 : c.versions[j]? = c.versions[(0 : Nat)]? := by
        rw [hv, Chain.version_eq_getElem_zero c]
      exact hj0 (List.getElem?_inj hjlen hnodup h0)
  rw [migrate_config_eq_of_version m parse c s doc v hparse hver,
    migrate_from_doc_firstMatch c v _ j hbefore hv, hdeser]
  simp only [Except.map]
  rw [decide_eq_decide.mpr hflag]

/-- Witness for C1: the example chain `{V1 = 1, V2 = 2}`, a document
tagged `1`, target `ConfigV2` at depth `j = 1`. -/
theorem C1_chain_resolution_witness :
    migrate_config ⟨"version", none⟩ parseToml exampleChain
      "version = 1\nname = \"MyApp\"\ntimeout = 60" =
      .ok ({ name := "MyApp", timeout := 60, retries := 4 }, decide ((1 : Nat) ≠ 0)) :=
  C1_chain_resolution ⟨"version", none⟩ parseToml exampleChain
    "version = 1\nname = \"MyApp\"\ntimeout = 60"
    [("version", .int 1), ("name", .str "MyApp"), ("timeout", .int 60)]
    1 1 { name := "MyApp", timeout := 60, retries := 4 }
    (by decide) rfl rfl rfl rfl

/-- `migrate_from_doc` at the target's own version deserializes directly
with the target schema's deserializer. -/
theorem migrate_from_doc_at_target {α : Type} (c : Chain α) (doc : Doc) :
    migrate_from_doc c c.version doc = (c.deserHead doc).mapError Error.deser := by
  cases c <;> simp [migrate_from_doc, Chain.version, Chain.deserHead]

/-- C2: a document whose extracted version tag equals the target's own
`VERSION` and which deserializes successfully as the target yields
`migration_occurred = false` and the value of directly deserializing the
document (version field removed) as the target, with no conversion
applied. -/
theorem C2_target_version_direct {α : Type} (m : ConfigMigrator)
    (parse : String → Except TomlError Doc) (c : Chain α) (s : String)
    (doc : Doc) (x : α)
    (hparse : parse s = .ok doc)
    (hver : ((Doc.remove m.version_key doc).1.bind Item.as_integer).or
      m.default_version = some c.version)
    (hdeser : c.deserHead (Doc.remove m.version_key doc).2 = .ok x) :
    migrate_config m parse c s = .ok (x, false) := by
  rw [migrate_config_eq_of_version m parse c s doc c.version hparse hver,
    migrate_from_doc_at_target c, hdeser]
  simp [Except.map, Except.mapError]

/-- Witness for C2: a document tagged with `ConfigV2`'s own version. -/
theorem C2_target_version_direct_witness :
    migrate_config ⟨"version", none⟩ parseToml exampleChain
      "version = 2\nname = \"A\"\ntimeout = 1\nretries = 7" =
      .ok ({ name := "A", timeout := 1, retries := 7 }, false) :=
  C2_target_version_direct ⟨"version", none⟩ parseToml exampleChain
    "version = 2\nname = \"A\"\ntimeout = 1\nretries = 7"
    [("version", .int 2), ("name", .str "A"), ("timeout", .int 1),
      ("retries", .int 7)]
    { name := "A", timeout := 1, retries := 7 } rfl rfl rfl

/-- C3 counterexample: a document whose version field is present but
holds a string. With a configured default the call succeeds using the
default; with no default it fails — so a present version field does not
make `migrate_config` ignore the configured default. -/
theorem C3_counterexample :
    parseToml "version = \"x\"\nname = \"A\"\ntimeout = 1\nretries = 2" =
      .ok [("version", .str "x"), ("name", .str "A"), ("timeout", .int 1),
        ("retries", .int 2)] ∧
    Doc.lookup "version"
      [("version", .str "x"), ("name", .str "A"), ("timeout", .int 1),
        ("retries", .int 2)] = some (.str "x") ∧
    migrate_config ⟨"version", some 2⟩ parseToml exampleChain
      "version = \"x\"\nname = \"A\"\ntimeout = 1\nretries = 2" =
      .ok ({ name := "A", timeout := 1, retries := 2 }, false) ∧
    migrate_config ⟨"version", none⟩ parseToml exampleChain
      "version = \"x\"\nname = \"A\"\ntimeout = 1\nretries = 2" =
      .error .noValidVersion :=
  ⟨rfl, rfl, rfl, rfl⟩

/-- C3 (amended): the caller-supplied default is consulted only when the
version field is absent or does not hold an integer; for every document
whose version field holds an integer, `migrate_config` uses that integer
as the version tag and ignores any configured default. -/
theorem C3_amended_integer_tag_ignores_default {α : Type} (m : ConfigMigrator)
    (parse : String → Except TomlError Doc) (c : Chain α) (s : String)
    (doc : Doc) (v : Int)
    (hparse : parse s = .ok doc)
    (hint : (Doc.remove m.version_key doc).1.bind Item.as_integer = some v) :
    migrate_config m parse c s =
      (migrate_from_doc c v (Doc.remove m.version_key doc).2).map
        (fun x => (x, decide (v ≠ c.version))) ∧
    migrate_config m parse c s = migrate_config ⟨m.version_key, none⟩ parse c s := by
  have hor : ∀ d : Option Int,
      ((Doc.remove m.version_key doc).1.bind Item.as_integer).or d = some v := by
    intro d
    rw [hint]
    rfl
  constructor
  · exact migrate_config_eq_of_version m parse c s doc v hparse (hor m.default_version)
  · rw [migrate_config_eq_of_version m parse c s doc v hparse (hor m.default_version),
      migrate_config_eq_of_version ⟨m.version_key, none⟩ parse c s doc v hparse (hor none)]

/-- Witness for the amended C3: an integer-tagged document run with a
conflicting default of 2 resolves by its own tag 1. -/
theorem C3_amended_integer_tag_ignores_default_witness :
    migrate_config ⟨"version", some 2⟩ parseToml exampleChain
      "version = 1\nname = \"MyApp\"\ntimeout = 60" =
      (migrate_from_doc exampleChain 1
        (Doc.remove "version"
          [("version", .int 1), ("name", .str "MyApp"), ("timeout", .int 60)]).2).map
        (fun x => (x, decide ((1 : Int) ≠ exampleChain.version))) ∧
    migrate_config ⟨"version", some 2⟩ parseToml exampleChain
      "version = 1\nname = \"MyApp\"\ntimeout = 60" =
      migrate_config ⟨"version", none⟩ parseToml exampleChain
        "version = 1\nname = \"MyApp\"\ntimeout = 60" :=
  C3_amended_integer_tag_ignores_default ⟨"version", some 2⟩ parseToml exampleChain
    "version = 1\nname = \"MyApp\"\ntimeout = 60"
    [("version", .int 1), ("name", .str "MyApp"), ("timeout", .int 60)]
    1 rfl rfl

/-- A tag matching no version in the chain drives `migrate_from_doc` to
the root and yields `NoValidVersion`. -/
theorem migrate_from_doc_not_mem {α : Type} (c : Chain α) (v : Int) (doc : Doc)
    (h : v ∉ c.versions) : migrate_from_doc c v doc = .error .noValidVersion := by
  induction c with
  | root s =>
    have hne : v ≠ s.version := by simpa [Chain.versions] using h
    simp [migrate_from_doc, hne]
  | cons s conv rest ih =>
    have h1 : v ≠ s.version := fun he => h (by simp [Chain.versions, he])
    have h2 : v ∉ rest.versions := fun hm => h (by simp [Chain.versions, hm])
    simp [migrate_from_doc, h1, ih h2, Except.map]

/-- A tag matching some version in the chain never yields
`NoValidVersion`: the walk stops at the match before reaching the root's
failure case. -/
theorem migrate_from_doc_mem {α : Type} (c : Chain α) (v : Int) (doc : Doc)
    (h : v ∈ c.versions) : migrate_from_doc c v doc ≠ .error .noValidVersion := by
  induction c with
  | root s =>
    have hv : v = s.version := by simpa [Chain.versions] using h
    simp only [migrate_from_doc, if_pos hv]
    cases s.deser doc <;> simp [Except.mapError]
  | cons s conv rest ih =>
    by_cases hv : v = s.version
    · simp only [migrate_from_doc, if_pos hv]
      cases s.deser doc <;> simp [Except.mapError]
    · have hm : v ∈ rest.versions := by
        rcases (by simpa [Chain.versions] using h : v = s.version ∨ v ∈ rest.versions)
          with h' | h'
        · exact absurd h' hv
        · exact h'
      simp only [migrate_from_doc, if_neg hv]
      intro hcontra
      cases hrec : migrate_from_doc rest v doc with
      | ok a => rw [hrec] at hcontra; simp [Except.map] at hcontra
      | error e =>
        rw [hrec] at hcontra
        simp only [Except.map] at hcontra
        injection hcontra with he
        exact ih hm (by rw [hrec, he])

/-- Unfolding `migrate_config` on the path where parsing succeeds but no
version tag is obtained. -/
theorem migrate_config_eq_of_no_version {α : Type} (m : ConfigMigrator)
    (parse : String → Except TomlError Doc) (c : Chain α) (s : String)
    (doc : Doc) (hparse : parse s = .ok doc)
    (hver : ((Doc.remove m.version_key doc).1.bind Item.as_integer).or
      m.default_version = none) :
    migrate_config m parse c s = .error .noValidVersion := by
  unfold migrate_config
  rw [hparse]
  simp only [hver]

/-- C4: a well-formed document whose extracted version tag matches no
version of any schema reachable from the target yields `NoValidVersion`;
and at the resolver level that error arises exactly when no chain version
matches the tag (the walk reaches the self-predecessor root without a
match). -/
theorem C4_no_valid_version {α : Type} (m : ConfigMigrator)
    (parse : String → Except TomlError Doc) (c : Chain α) (s : String)
    (doc : Doc) (v : Int)
    (hparse : parse s = .ok doc)
    (hver : ((Doc.remove m.version_key doc).1.bind Item.as_integer).or
      m.default_version = some v)
    (hnot : v ∉ c.versions) :
    migrate_config m parse c s = .error .noValidVersion ∧
    ∀ (w : Int) (doc' : Doc),
      migrate_from_doc c w doc' = .error .noValidVersion ↔ w ∉ c.versions := by
  constructor
  · rw [migrate_config_eq_of_version m parse c s doc v hparse hver,
      migrate_from_doc_not_mem c v _ hnot]
    rfl
  · intro w doc'
    constructor
    · intro he hw
      exact migrate_from_doc_mem c w doc' hw he
    · exact migrate_from_doc_not_mem c w doc'

/-- Witness for C4: the example chain has versions 2 and 1; a document
tagged 5 fails with `NoValidVersion`. -/
theorem C4_no_valid_version_witness :
    migrate_config ⟨"version", none⟩ parseToml exampleChain
      "version = 5\nname = \"A\"\ntimeout = 1\nretries = 2" =
      .error .noValidVersion :=
  (C4_no_valid_version ⟨"version", none⟩ parseToml exampleChain
    "version = 5\nname = \"A\"\ntimeout = 1\nretries = 2"
    [("version", .int 5), ("name", .str "A"), ("timeout", .int 1),
      ("retries", .int 2)]
    5 rfl rfl (by decide)).1

/-- Removing a key that is not in the document leaves it unchanged. -/
theorem Doc.remove_snd_of_lookup_none (key : String) (doc : Doc)
    (h : Doc.lookup key doc = none) : (Doc.remove key doc).2 = doc := by
  have hf : doc.find? (fun p => p.1 = key) = none := by
    simpa [Doc.lookup] using h
  rw [List.find?_eq_none] at hf
  simp only [Doc.remove]
  apply List.filter_eq_self.mpr
  intro a ha
  simpa using hf a ha

/-- Removing a key from a document whose head carries exactly that key
returns the head's item and the tail, when the tail does not contain the
key. -/
theorem Doc.remove_cons_self (key : String) (item : Item) (doc : Doc)
    (h : Doc.lookup key doc = none) :
    Doc.remove key ((key, item) :: doc) = (some item, doc) := by
  have h2 := Doc.remove_snd_of_lookup_none key doc h
  simp only [Doc.remove] at h2 ⊢
  rw [List.find?_cons_of_pos _ (by simp), List.filter_cons_of_neg (by simp), h2]
  rfl

/-- C5: for a well-formed document lacking the version field, no
configured default yields `NoValidVersion`; a configured default `d`
equal to some chain version makes the call behave identically to running
it on the same document carrying an explicit version tag `d`. -/
theorem C5_missing_version_field {α : Type}
    (parse : String → Except TomlError Doc) (c : Chain α) (key : String)
    (d : Int) (s s' : String) (doc : Doc)
    (hparse : parse s = .ok doc)
    (hmiss : Doc.lookup key doc = none)
    (_hmem : d ∈ c.versions) :
    migrate_config ⟨key, none⟩ parse c s = .error .noValidVersion ∧
    (parse s' = .ok ((key, .int d) :: doc) →
      migrate_config ⟨key, some d⟩ parse c s =
        migrate_config ⟨key, some d⟩ parse c s') := by
  have hfst : (Doc.remove key doc).1 = none := hmiss
  constructor
  · apply migrate_config_eq_of_no_version ⟨key, none⟩ parse c s doc hparse
    rw [hfst]
    rfl
  · intro hparse'
    have hver : ((Doc.remove key doc).1.bind Item.as_integer).or (some d) = some d := by
      rw [hfst]
      rfl
    have hrm' := Doc.remove_cons_self key (.int d) doc hmiss
    have hver' : ((Doc.remove key ((key, Item.int d) :: doc)).1.bind
        Item.as_integer).or (some d) = some d := by
      rw [hrm']
      rfl
    rw [migrate_config_eq_of_version ⟨key, some d⟩ parse c s doc d hparse hver,
      migrate_config_eq_of_version ⟨key, some d⟩ parse c s'
        ((key, Item.int d) :: doc) d hparse' hver',
      hrm', Doc.remove_snd_of_lookup_none key doc hmiss]

/-- Witness for C5: the example chain, a document without a version
field, and its variant carrying `version = 1`. -/
theorem C5_missing_version_field_witness :
    migrate_config ⟨"version", none⟩ parseToml exampleChain
      "name = \"MyApp\"\ntimeout = 60" = .error .noValidVersion ∧
    (parseToml "version = 1\nname = \"MyApp\"\ntimeout = 60" =
        .ok (("version", .int 1) :: [("name", .str "MyApp"), ("timeout", .int 60)]) →
      migrate_config ⟨"version", some 1⟩ parseToml exampleChain
        "name = \"MyApp\"\ntimeout = 60" =
        migrate_config ⟨"version", some 1⟩ parseToml exampleChain
          "version = 1\nname = \"MyApp\"\ntimeout = 60") :=
  C5_missing_version_field parseToml exampleChain "version" 1
    "name = \"MyApp\"\ntimeout = 60"
    "version = 1\nname = \"MyApp\"\ntimeout = 60"
    [("name", .str "MyApp"), ("timeout", .int 60)]
    rfl rfl (by decide)

/-- C6: an input string that fails TOML parsing always yields the
`Parse` error variant, for every target chain, version key and default:
parsing precedes version extraction and deserialization. -/
theorem C6_parse_error_first {α : Type} (m : ConfigMigrator)
    (parse : String → Except TomlError Doc) (c : Chain α) (s : String)
    (e : TomlError) (hparse : parse s = .error e) :
    migrate_config m parse c s = .error (.parse e) := by
  unfold migrate_config
  rw [hparse]

/-- Witness for C6: an unterminated-table line is rejected by the parser
and surfaces as a parse error. -/
theorem C6_parse_error_first_witness :
    migrate_config ⟨"version", some 1⟩ parseToml exampleChain "[unterminated" =
      .error (.parse "line syntax") :=
  C6_parse_error_first ⟨"version", some 1⟩ parseToml exampleChain
    "[unterminated" "line syntax" rfl

/-- The removed-key slot of the removed document is empty. -/
theorem Doc.lookup_remove_self (key : String) (d : Doc) :
    Doc.lookup key (Doc.remove key d).2 = none := by
  simp only [Doc.lookup, Doc.remove, Option.map_eq_none']
  rw [List.find?_eq_none]
  intro x hx
  have := List.of_mem_filter hx
  simpa using this

/-- Every key other than the removed one reads the same before and after
removal. -/
theorem Doc.lookup_remove_other (key k : String) (hk : k ≠ key) (d : Doc) :
    Doc.lookup k (Doc.remove key d).2 = Doc.lookup k d := by
  induction d with
  | nil => rfl
  | cons a t ih =>
    simp only [Doc.lookup, Doc.remove] at ih ⊢
    by_cases ha : a.1 = key
    · rw [List.filter_cons_of_neg (by simp [ha]),
        List.find?_cons_of_neg _ (by simp only [ha, decide_eq_true_eq]; exact fun he => hk he.symm)]
      exact ih
    · rw [List.filter_cons_of_pos (by simp [ha])]
      by_cases hak : a.1 = k
      · rw [List.find?_cons_of_pos _ (by simp [hak]),
          List.find?_cons_of_pos _ (by simp [hak])]
      · rw [List.find?_cons_of_neg _ (by simp [hak]),
          List.find?_cons_of_neg _ (by simp [hak])]
        exact ih

/-- C7: on the success path, the document handed to resolution (and so to
the final deserialization) is the parsed input with exactly the top-level
version field removed: the removed document no longer answers for the
version key and answers identically for every other key. -/
theorem C7_frame_version_removed {α : Type} (m : ConfigMigrator)
    (parse : String → Except TomlError Doc) (c : Chain α) (s : String)
    (doc : Doc) (v : Int)
    (hparse : parse s = .ok doc)
    (hver : ((Doc.remove m.version_key doc).1.bind Item.as_integer).or
      m.default_version = some v) :
    migrate_config m parse c s =
      (migrate_from_doc c v (Doc.remove m.version_key doc).2).map
        (fun x => (x, decide (v ≠ c.version))) ∧
    Doc.lookup m.version_key (Doc.remove m.version_key doc).2 = none ∧
    ∀ k, k ≠ m.version_key →
      Doc.lookup k (Doc.remove m.version_key doc).2 = Doc.lookup k doc :=
  ⟨migrate_config_eq_of_version m parse c s doc v hparse hver,
   Doc.lookup_remove_self m.version_key doc,
   fun k hk => Doc.lookup_remove_other m.version_key k hk doc⟩

/-- Witness for C7: the example document; `ConfigV2` has no `version`
field, yet deserialization succeeds because the key was consumed. -/
theorem C7_frame_version_removed_witness :
    migrate_config ⟨"version", none⟩ parseToml exampleChain
      "version = 1\nname = \"MyApp\"\ntimeout = 60" =
      (migrate_from_doc exampleChain 1
        (Doc.remove "version"
          [("version", .int 1), ("name", .str "MyApp"), ("timeout", .int 60)]).2).map
        (fun x => (x, decide ((1 : Int) ≠ exampleChain.version))) ∧
    Doc.lookup "version"
      (Doc.remove "version"
        [("version", .int 1), ("name", .str "MyApp"), ("timeout", .int 60)]).2 = none ∧
    ∀ k, k ≠ "version" →
      Doc.lookup k
        (Doc.remove "version"
          [("version", .int 1), ("name", .str "MyApp"), ("timeout", .int 60)]).2 =
      Doc.lookup k [("version", .int 1), ("name", .str "MyApp"), ("timeout", .int 60)] :=
  C7_frame_version_removed ⟨"version", none⟩ parseToml exampleChain
    "version = 1\nname = \"MyApp\"\ntimeout = 60"
    [("version", .int 1), ("name", .str "MyApp"), ("timeout", .int 60)]
    1 rfl rfl

/-- C8: `migrate_config` is deterministic: with the chain, version key,
default and parser fixed, equal input strings give equal results — a
single pass with no retry or internal recovery. -/
theorem C8_deterministic {α : Type} (m : ConfigMigrator)
    (parse : String → Except TomlError Doc) (c : Chain α) (s₁ s₂ : String)
    (h : s₁ = s₂) :
    migrate_config m parse c s₁ = migrate_config m parse c s₂ := by
  rw [h]

/-- Witness for C8 at the example input. -/
theorem C8_deterministic_witness :
    migrate_config ⟨"version", none⟩ parseToml exampleChain
      "version = 1\nname = \"MyApp\"\ntimeout = 60" =
    migrate_config ⟨"version", none⟩ parseToml exampleChain
      "version = 1\nname = \"MyApp\"\ntimeout = 60" :=
  C8_deterministic ⟨"version", none⟩ parseToml exampleChain
    "version = 1\nname = \"MyApp\"\ntimeout = 60"
    "version = 1\nname = \"MyApp\"\ntimeout = 60" rfl

/-- C9: the worked example: chain `{V1 = 1, V2 = 2}`, input
`version = 1, name = "MyApp", timeout = 60`, target `ConfigV2`, version
key `"version"`, yields `{name = "MyApp", timeout = 60, retries = 4}`
with `migration_occurred = true`. -/
theorem C9_example_migration :
    migrate_config ⟨"version", none⟩ parseToml exampleChain
      "version = 1\nname = \"MyApp\"\ntimeout = 60" =
      .ok ({ name := "MyApp", timeout := 60, retries := 4 }, true) := rfl

/-- C10: when a later (target-closer) schema and an earlier schema carry
the same version and the tag matches it, `migrate_from_doc` resolves at
the schema closest to the target: the first match on the backward walk
wins, before the root check. -/
theorem C10_duplicate_version_first_match {α : Type} (c : Chain α) (v : Int)
    (doc : Doc) (j j' : Nat)
    (hbefore : ∀ i, i < j → c.versions[i]? ≠ some v)
    (hv : c.versions[j]? = some v)
    (_hdup : j < j' ∧ c.versions[j']? = some v) :
    migrate_from_doc c v doc = migrateVia c j doc :=
  migrate_from_doc_firstMatch c v doc j hbefore hv

/-- Witness for C10: both schemas of `chainDup` have version 1; the tag 1
resolves at the target schema itself (its deserializer reads `retries`
from the document rather than the conversion's default 4). -/
theorem C10_duplicate_version_first_match_witness :
    migrate_from_doc chainDup 1
        [("name", .str "A"), ("timeout", .int 1), ("retries", .int 3)] =
      migrateVia chainDup 0
        [("name", .str "A"), ("timeout", .int 1), ("retries", .int 3)] ∧
    migrate_from_doc chainDup 1
        [("name", .str "A"), ("timeout", .int 1), ("retries", .int 3)] =
      .ok { name := "A", timeout := 1, retries := 3 } :=
  ⟨C10_duplicate_version_first_match chainDup 1
    [("name", .str "A"), ("timeout", .int 1), ("retries", .int 3)] 0 1
    (fun i hi => absurd hi (Nat.not_lt_zero i)) rfl ⟨Nat.zero_lt_one, rfl⟩,
   rfl⟩
